import Mathlib

/-!
# Verification of the DeppeSearch research-orchestration core

Shallow embedding of the provider-agnostic research pipeline:
the three reasoning-backend services (`geminiService.ts`, `minimaxService.ts`,
`ollamaService.ts`), the Tavily search service (`searchService.ts`), the
orchestrator state machine (`App.tsx`, `handleSearch`), the configuration
validator (`App.tsx`, `handleValidate`) and the settings mutation handlers
(`ProviderSettings`).

Network calls are modelled as explicit outcome parameters (`Except String _`:
an error carries the thrown message, a success carries the response body
already reduced to the one text completion string, as the services do).
All other logic — JSON salvaging, fallbacks, step bookkeeping, source
deduplication — is translated directly from the TypeScript source.
-/

/-! ## JSON values and a model of JavaScript `JSON.parse`

The services parse model output with `JSON.parse` after a regex extraction.
`JValue` is the result type of a successful parse; numbers keep their raw
lexeme (no claim inspects a numeric value). `jparse` follows the JSON
grammar accepted by `JSON.parse`: it rejects trailing content, unescaped
control characters, leading zeros, and incomplete fractions/exponents,
exactly as the runtime parser does. -/

inductive JValue where
  | null : JValue
  | bool (b : Bool) : JValue
  | num (lexeme : String) : JValue
  | str (s : String) : JValue
  | arr (elems : List JValue) : JValue
  | obj (fields : List (String × JValue)) : JValue

/-- Whether a parsed value is JSON `null` (property access on `null`
throws a `TypeError` at runtime, which the services catch). -/
def JValue.isNull : JValue → Bool
  | JValue.null => true
  | _ => false

/-- The left brace character (written via its code point). -/
def lbrace : Char := Char.ofNat 123

/-- The right brace character (written via its code point). -/
def rbrace : Char := Char.ofNat 125

/-- JSON insignificant whitespace: space, tab, line feed, carriage return. -/
def isJsonWs (c : Char) : Bool :=
  c = ' ' || c = '\t' || c = '\n' || c = Char.ofNat 13

/-- Drop leading JSON whitespace. -/
def skipWs : List Char → List Char
  | [] => []
  | c :: rest => if isJsonWs c then skipWs rest else c :: rest

/-- Value of a hexadecimal digit, if any. -/
def hexVal (c : Char) : Option Nat :=
  if '0' ≤ c ∧ c ≤ '9' then some (c.toNat - 48)
  else if 'a' ≤ c ∧ c ≤ 'f' then some (c.toNat - 87)
  else if 'A' ≤ c ∧ c ≤ 'F' then some (c.toNat - 55)
  else none

/-- Single-character JSON string escapes. -/
def escChar (c : Char) : Option Char :=
  if c = '"' then some '"'
  else if c = '\\' then some '\\'
  else if c = '/' then some '/'
  else if c = 'b' then some (Char.ofNat 8)
  else if c = 'f' then some (Char.ofNat 12)
  else if c = 'n' then some '\n'
  else if c = 'r' then some (Char.ofNat 13)
  else if c = 't' then some '\t'
  else none

/-- Parse the body of a JSON string (the opening quote already consumed),
returning the decoded characters and the remaining input. -/
def parseStrChars : Nat → List Char → Option (List Char × List Char)
  | 0, _ => none
  | _ + 1, [] => none
  | n + 1, c :: rest =>
    if c = '"' then some ([], rest)
    else if c = '\\' then
      match rest with
      | [] => none
      | e :: rest2 =>
        if e = 'u' then
          match rest2 with
          | h1 :: h2 :: h3 :: h4 :: rest3 =>
            match hexVal h1, hexVal h2, hexVal h3, hexVal h4 with
            | some a, some b, some c2, some d =>
              match parseStrChars n rest3 with
              | some (cs, r) =>
                some (Char.ofNat (((a * 16 + b) * 16 + c2) * 16 + d) :: cs, r)
              | none => none
            | _, _, _, _ => none
          | _ => none
        else
          match escChar e with
          | some ch =>
            match parseStrChars n rest2 with
            | some (cs, r) => some (ch :: cs, r)
            | none => none
          | none => none
    else if c.toNat < 32 then none
    else
      match parseStrChars n rest with
      | some (cs, r) => some (c :: cs, r)
      | none => none

/-- Lex the integer part of a JSON number (`0`, or a nonzero digit followed
by digits; leading zeros are rejected as in `JSON.parse`). -/
def lexInt : List Char → Option (List Char × List Char)
  | [] => none
  | c :: rest =>
    if c = '0' then some ([c], rest)
    else if c.isDigit then
      let (ds, rest2) := rest.span (fun d => d.isDigit)
      some (c :: ds, rest2)
    else none

/-- Lex an optional fraction part (`.` followed by at least one digit). -/
def lexFrac (cs : List Char) : Option (List Char × List Char) :=
  match cs with
  | '.' :: rest =>
    let (ds, rest2) := rest.span (fun d => d.isDigit)
    if ds = [] then none else some ('.' :: ds, rest2)
  | _ => some ([], cs)

/-- Lex an optional exponent part (`e`/`E`, optional sign, digits). -/
def lexExp (cs : List Char) : Option (List Char × List Char) :=
  match cs with
  | [] => some ([], [])
  | c :: rest =>
    if c = 'e' ∨ c = 'E' then
      match rest with
      | [] => none
      | s :: rest2 =>
        if s = '+' ∨ s = '-' then
          let (ds, rest3) := rest2.span (fun d => d.isDigit)
          if ds = [] then none else some (c :: s :: ds, rest3)
        else
          let (ds, rest3) := rest.span (fun d => d.isDigit)
          if ds = [] then none else some (c :: ds, rest3)
    else some ([], cs)

/-- Lex a complete JSON number, returning its lexeme. -/
def lexNumber (cs : List Char) : Option (List Char × List Char) :=
  let (sign, cs1) :=
    match cs with
    | '-' :: rest => ([('-' : Char)], rest)
    | _ => (([] : List Char), cs)
  match lexInt cs1 with
  | none => none
  | some (ip, cs2) =>
    match lexFrac cs2 with
    | none => none
    | some (fp, cs3) =>
      match lexExp cs3 with
      | none => none
      | some (ep, cs4) => some (sign ++ ip ++ fp ++ ep, cs4)

mutual

/-- Parse one JSON value (fuelled recursive-descent; the fuel only bounds
recursion depth and is always sufficient at `length + 2`). -/
def parseValue : Nat → List Char → Option (JValue × List Char)
  | 0, _ => none
  | n + 1, cs =>
    match skipWs cs with
    | [] => none
    | c :: rest =>
      if c = '[' then
        match skipWs rest with
        | ']' :: rest2 => some (JValue.arr [], rest2)
        | _ =>
          match parseValue n rest with
          | some (v, rest2) =>
            match parseElems n rest2 with
            | some (vs, rest3) => some (JValue.arr (v :: vs), rest3)
            | none => none
          | none => none
      else if c = lbrace then
        match skipWs rest with
        | [] => none
        | hd :: rest2 =>
          if hd = rbrace then some (JValue.obj [], rest2)
          else
            match parseField n (hd :: rest2) with
            | some (f, rest3) =>
              match parseFields n rest3 with
              | some (fs, rest4) => some (JValue.obj (f :: fs), rest4)
              | none => none
            | none => none
      else if c = '"' then
        match parseStrChars (rest.length + 1) rest with
        | some (scs, rest2) => some (JValue.str (String.mk scs), rest2)
        | none => none
      else
        match c :: rest with
        | 't' :: 'r' :: 'u' :: 'e' :: r => some (JValue.bool true, r)
        | 'f' :: 'a' :: 'l' :: 's' :: 'e' :: r => some (JValue.bool false, r)
        | 'n' :: 'u' :: 'l' :: 'l' :: r => some (JValue.null, r)
        | cs1 =>
          match lexNumber cs1 with
          | some (lex, r) => some (JValue.num (String.mk lex), r)
          | none => none

/-- Parse the continuation of an array: `, value` repeated, then `]`. -/
def parseElems : Nat → List Char → Option (List JValue × List Char)
  | 0, _ => none
  | n + 1, cs =>
    match skipWs cs with
    | [] => none
    | c :: rest =>
      if c = ']' then some ([], rest)
      else if c = ',' then
        match parseValue n rest with
        | some (v, rest2) =>
          match parseElems n rest2 with
          | some (vs, rest3) => some (v :: vs, rest3)
          | none => none
        | none => none
      else none

/-- Parse one `"key" : value` member of an object. -/
def parseField : Nat → List Char → Option ((String × JValue) × List Char)
  | 0, _ => none
  | n + 1, cs =>
    match skipWs cs with
    | '"' :: rest =>
      match parseStrChars (rest.length + 1) rest with
      | some (kcs, rest2) =>
        match skipWs rest2 with
        | ':' :: rest3 =>
          match parseValue n rest3 with
          | some (v, rest4) => some ((String.mk kcs, v), rest4)
          | none => none
        | _ => none
      | none => none
    | _ => none

/-- Parse the continuation of an object: `, member` repeated, then `}`. -/
def parseFields : Nat → List Char → Option (List (String × JValue) × List Char)
  | 0, _ => none
  | n + 1, cs =>
    match skipWs cs with
    | [] => none
    | c :: rest =>
      if c = rbrace then some ([], rest)
      else if c = ',' then
        match parseField n rest with
        | some (f, rest2) =>
          match parseFields n rest2 with
          | some (fs, rest3) => some (f :: fs, rest3)
          | none => none
        | none => none
      else none

end

/-- Model of `JSON.parse`: parse one value and reject trailing content.
Returns `none` exactly when `JSON.parse` would throw a `SyntaxError`. -/
def jparse (s : String) : Option JValue :=
  let cs := s.toList
  match parseValue (cs.length + 2) cs with
  | some (v, rest) =>
    match skipWs rest with
    | [] => some v
    | _ => none
  | none => none

/-! ## JavaScript value views

`JSVal` is the result of a JS property access: either `undefined` or a
parsed JSON value. `step.query` is stored untranslated (as JS does) and
only stringified where a template literal renders it. -/

inductive JSVal where
  | undef : JSVal
  | ofJson (v : JValue) : JSVal

/-- JS property access `v.key` on a parsed JSON value: the last binding of
the key on an object (`JSON.parse` lets a duplicate key overwrite earlier
ones), `undefined` on any other value. Access on `null` throws instead;
callers handle that case before calling this. -/
def jsGet (v : JValue) (key : String) : JSVal :=
  match v with
  | JValue.obj fields =>
    match fields.reverse.find? (fun p => p.1 = key) with
    | some p => JSVal.ofJson p.2
    | none => JSVal.undef
  | _ => JSVal.undef

mutual

/-- JS template-literal stringification `String(v)` of a parsed JSON value.
Numbers are rendered as their source lexeme (an approximation of JS float
formatting; no claim renders a numeric value). -/
def jsStringOf : JValue → String
  | JValue.null => "null"
  | JValue.bool b => if b then "true" else "false"
  | JValue.num lexeme => lexeme
  | JValue.str s => s
  | JValue.arr l => jsStringOfElems l
  | JValue.obj _ => "[object Object]"

/-- `Array.prototype.join` with `","` as used by `String(array)`;
`null` elements render as the empty string. -/
def jsStringOfElems : List JValue → String
  | [] => ""
  | [v] => jsStringOfElem v
  | v :: rest => jsStringOfElem v ++ "," ++ jsStringOfElems rest

/-- One element of a joined array (`null` renders empty). -/
def jsStringOfElem : JValue → String
  | JValue.null => ""
  | v => jsStringOf v

end

/-- Template-literal stringification of a property-access result. -/
def JSVal.display : JSVal → String
  | JSVal.undef => "undefined"
  | JSVal.ofJson v => jsStringOf v

/-- Whether a number lexeme denotes zero (its mantissa has no nonzero digit). -/
def numLexIsZero (lexeme : String) : Bool :=
  let m := lexeme.toList.takeWhile (fun c => c ≠ 'e' ∧ c ≠ 'E')
  (m.filter (fun c => c.isDigit)).all (fun c => c = '0')

/-- JS truthiness of a parsed JSON value (`""`, `0`, `false`, `null` are falsy). -/
def jsTruthy : JValue → Bool
  | JValue.null => false
  | JValue.bool b => b
  | JValue.num lexeme => !(numLexIsZero lexeme)
  | JValue.str s => s ≠ ""
  | JValue.arr _ => true
  | JValue.obj _ => true

/-- JS truthiness of a property-access result (`undefined` is falsy). -/
def JSVal.truthy : JSVal → Bool
  | JSVal.undef => false
  | JSVal.ofJson v => jsTruthy v

/-- Rendering of an optional string in a template literal
(a missing value prints as `undefined`). -/
def jsDisplayOpt : Option String → String
  | some s => s
  | none => "undefined"

/-! ## Data model (`types.ts`) -/

/-- The `web` payload of a `GroundingChunk`. -/
structure WebSource where
  uri : String
  title : String
deriving DecidableEq, Repr

/-- A web citation (`GroundingChunk` in `types.ts`): `web` is optional. -/
structure GroundingChunk where
  web : Option WebSource
deriving DecidableEq, Repr

/-- Step lifecycle states (`ResearchStep.status` in `types.ts`). -/
inductive StepStatus where
  | pending | searching | analyzing | completed | failed
deriving DecidableEq, Repr

/-- One sub-question of the plan (`ResearchStep` in `types.ts`). The query
is a raw JS value: the plan mapping stores `p.query` without conversion. -/
structure ResearchStep where
  id : String
  query : JSVal
  status : StepStatus
  result : Option String := none
  sources : Option (List GroundingChunk) := none

/-- Result of one research step (`{ result, sources }`). -/
structure StepOutcome where
  result : String
  sources : List GroundingChunk

/-- Observed behaviour of `executeResearchStep`: its outcome (or thrown
error) together with whether the reasoning-model call was issued. -/
structure ExecOutcome where
  outcome : Except String StepOutcome
  reasoningCalled : Bool

/-- Output of `synthesizeAnalysis`. -/
structure Synthesis where
  summary : String
  deepDive : String
deriving DecidableEq, Repr

/-- Backend kinds (`ProviderType` in `types.ts`). -/
inductive ProviderType where
  | gemini | minimax | ollama
deriving DecidableEq, Repr

/-- User configuration (`ProviderConfig` in `types.ts`); optional string
fields are modelled with `""` for absent. `model` holds the Ollama base
URL, as in the source. -/
structure ProviderConfig where
  provider : ProviderType
  apiKey : String
  groupId : String
  model : String
  searchApiKey : String
  isValid : Bool
deriving DecidableEq, Repr

/-! ## Regex extraction

`minimaxService.ts` and `ollamaService.ts` run `response.match(/\[[\s\S]*\]/)`
(and `/\{[\s\S]*\}/` for synthesis) before parsing: the first match of that
greedy regex is the substring from the first opening delimiter that has a
closing delimiter somewhere after it, up to the last closing delimiter of
the whole string. -/

/-- First match of the greedy regex `op [\s\S]* cl` in `s`, if any. -/
def extractDelimited (op cl : Char) (s : String) : Option String :=
  match s.toList.dropWhile (fun c => c ≠ op) with
  | [] => none
  | _ :: tail =>
    if tail.contains cl then
      some (String.mk (op :: (tail.reverse.dropWhile (fun c => c ≠ cl)).reverse))
    else none

/-- `response.match(/\[[\s\S]*\]/)`. -/
def extractBrackets (s : String) : Option String := extractDelimited '[' ']' s

/-- `response.match(/\{[\s\S]*\}/)`. -/
def extractBraces (s : String) : Option String := extractDelimited lbrace rbrace s

/-! ## Evidence Source (`searchService.ts`) -/

namespace SearchService

/-- One Tavily hit reduced to `{url, title, content}`. -/
structure TavilySearchResult where
  url : String
  title : String
  content : String
deriving DecidableEq, Repr

/-- Citations as a 1:1 projection of the hits (lines 63-68). -/
def sourcesOf (results : List TavilySearchResult) : List GroundingChunk :=
  results.map (fun r => { web := some { uri := r.url, title := r.title } })

/-- `SearchService.search`: the HTTP outcome is a parameter; a missing
credential or a non-ok response is an `Except.error` carrying the thrown
message. On success the hit list is paired with its projected citations. -/
def search (httpOutcome : Except String (List TavilySearchResult)) :
    Except String (List TavilySearchResult × List GroundingChunk) :=
  match httpOutcome with
  | Except.error e => Except.error e
  | Except.ok results => Except.ok (results, sourcesOf results)

/-- `SearchService.summarizeResults` (lines 76-86): numbered titles with
the content excerpt truncated to 500 characters. -/
def summarizeResults (query : String) (results : List TavilySearchResult) : String :=
  if results.length = 0 then "No information found."
  else
    let formatted := String.intercalate "\n\n"
      (results.mapIdx (fun i r =>
        "[" ++ toString (i + 1) ++ "] " ++ r.title ++ "\n" ++ r.content.take 500 ++ "..."))
    "Search Query: " ++ query ++ "\n\nFound " ++ toString results.length ++
      " relevant sources:\n\n" ++ formatted

end SearchService

/-! ## Shared plan construction

All three backends map the parsed array to steps with
`plan.map((p, index) => ({ id: `step-${index}`, query: p.query,
status: 'pending' }))`, and fall back to a single-element plan with the
original query on any caught error. -/

/-- The `.map((p, index) => ...)` over the parsed plan array. -/
def mkPlanSteps : Nat → List JValue → List ResearchStep
  | _, [] => []
  | i, p :: rest =>
    { id := "step-" ++ toString i, query := jsGet p "query",
      status := StepStatus.pending } :: mkPlanSteps (i + 1) rest

/-- The catch-branch plan `[{ id: 'step-0', query: userQuery, status: 'pending' }]`. -/
def fallbackPlan (userQuery : String) : List ResearchStep :=
  [{ id := "step-0", query := JSVal.ofJson (JValue.str userQuery),
     status := StepStatus.pending }]

/-- Shared research-dossier construction (`researchData` in both
`synthesizeAnalysis` implementations): each step's query and result joined
in step order. -/
def researchData (steps : List ResearchStep) : String :=
  String.intercalate "\n\n---\n\n"
    (steps.map (fun s => "Query: " ++ s.query.display ++ "\nFindings: " ++ jsDisplayOpt s.result))

/-! ## MiniMax backend (`minimaxService.ts`) -/

namespace MiniMaxService

/-- Lines 145-146: `const jsonMatch = response.match(/\[[\s\S]*\]/);
const plan = jsonMatch ? JSON.parse(jsonMatch[0]) : JSON.parse(response)`,
with `none` when the attempted parse throws. -/
def salvagePlanJson (response : String) : Option JValue :=
  match extractBrackets response with
  | some m => jparse m
  | none => jparse response

/-- `MiniMaxService.generateResearchPlan` (lines 125-157). The whole body —
API call, extraction, parse, map — is inside `try`; any failure (including
an API error, a non-array parse result, or a `null` element making
`p.query` throw) yields the single-step fallback plan. -/
def generateResearchPlan (userQuery : String) (api : Except String String) :
    List ResearchStep :=
  match api with
  | Except.error _ => fallbackPlan userQuery
  | Except.ok response =>
    match salvagePlanJson response with
    | some (JValue.arr l) =>
      if l.any JValue.isNull then fallbackPlan userQuery
      else mkPlanSteps 0 l
    | _ => fallbackPlan userQuery

/-- `MiniMaxService.executeResearchStep` (lines 162-213). The search call is
not inside any `try`: its failure propagates. Zero hits short-circuit before
the reasoning call. A failed reasoning call falls back to the raw context. -/
def executeResearchStep (query : String)
    (searchHttp : Except String (List SearchService.TavilySearchResult))
    (analysisApi : Except String String) : ExecOutcome :=
  match SearchService.search searchHttp with
  | Except.error e => { outcome := Except.error e, reasoningCalled := false }
  | Except.ok (results, sources) =>
    if results.length = 0 then
      { outcome := Except.ok { result := "No information found for this query.", sources := [] },
        reasoningCalled := false }
    else
      let searchContext := SearchService.summarizeResults query results
      match analysisApi with
      | Except.ok analysis =>
        { outcome := Except.ok { result := analysis, sources := sources }, reasoningCalled := true }
      | Except.error _ =>
        { outcome := Except.ok { result := searchContext, sources := sources }, reasoningCalled := true }

/-- Lines 247-248: brace extraction then parse for the synthesis response. -/
def salvageSynthesisJson (response : String) : Option JValue :=
  match extractBraces response with
  | some m => jparse m
  | none => jparse response

/-- `MiniMaxService.synthesizeAnalysis` (lines 218-259). Total: the API call
and the parse are inside `try`, and the catch returns the fixed summary with
the dossier as deep dive. A parsed `null` also reaches the catch (property
access throws). On parse success, falsy `summary`/`deepDive` fields default
to the fixed summary and the raw response (truthy non-string fields are kept
as values in JS; this model stringifies them at the record boundary). -/
def synthesizeAnalysis (originalQuery : String) (steps : List ResearchStep)
    (api : Except String String) : Synthesis :=
  let rd := researchData steps
  match api with
  | Except.error _ => { summary := "Analysis complete.", deepDive := rd }
  | Except.ok response =>
    match salvageSynthesisJson response with
    | none => { summary := "Analysis complete.", deepDive := rd }
    | some JValue.null => { summary := "Analysis complete.", deepDive := rd }
    | some v =>
      let s := jsGet v "summary"
      let d := jsGet v "deepDive"
      { summary := if s.truthy then s.display else "Analysis complete.",
        deepDive := if d.truthy then d.display else response }

end MiniMaxService

/-! ## Ollama backend (`ollamaService.ts`)

Character-identical logic to the MiniMax backend (only the transport and
the private copy of `summarizeResults` differ), so the definitions repeat
the same structure. -/

namespace OllamaService

/-- Lines 104-105: bracket extraction then parse. -/
def salvagePlanJson (response : String) : Option JValue :=
  match extractBrackets response with
  | some m => jparse m
  | none => jparse response

/-- `OllamaService.generateResearchPlan` (lines 91-116); the whole body is
inside `try` with the single-step fallback on any failure. -/
def generateResearchPlan (userQuery : String) (api : Except String String) :
    List ResearchStep :=
  match api with
  | Except.error _ => fallbackPlan userQuery
  | Except.ok response =>
    match salvagePlanJson response with
    | some (JValue.arr l) =>
      if l.any JValue.isNull then fallbackPlan userQuery
      else mkPlanSteps 0 l
    | _ => fallbackPlan userQuery

/-- `OllamaService.summarizeResults` (lines 208-218), a private copy of the
search service's helper with the same body. -/
def summarizeResults (query : String)
    (results : List SearchService.TavilySearchResult) : String :=
  if results.length = 0 then "No information found."
  else
    let formatted := String.intercalate "\n\n"
      (results.mapIdx (fun i r =>
        "[" ++ toString (i + 1) ++ "] " ++ r.title ++ "\n" ++ r.content.take 500 ++ "..."))
    "Search Query: " ++ query ++ "\n\nFound " ++ toString results.length ++
      " relevant sources:\n\n" ++ formatted

/-- `OllamaService.executeResearchStep` (lines 121-164): search failure
propagates, zero hits short-circuit, a failed reasoning call degrades to
the raw context. -/
def executeResearchStep (query : String)
    (searchHttp : Except String (List SearchService.TavilySearchResult))
    (analysisApi : Except String String) : ExecOutcome :=
  match SearchService.search searchHttp with
  | Except.error e => { outcome := Except.error e, reasoningCalled := false }
  | Except.ok (results, sources) =>
    if results.length = 0 then
      { outcome := Except.ok { result := "No information found for this query.", sources := [] },
        reasoningCalled := false }
    else
      let searchContext := summarizeResults query results
      match analysisApi with
      | Except.ok analysis =>
        { outcome := Except.ok { result := analysis, sources := sources }, reasoningCalled := true }
      | Except.error _ =>
        { outcome := Except.ok { result := searchContext, sources := sources }, reasoningCalled := true }

/-- Lines 191-192: brace extraction then parse. -/
def salvageSynthesisJson (response : String) : Option JValue :=
  match extractBraces response with
  | some m => jparse m
  | none => jparse response

/-- `OllamaService.synthesizeAnalysis` (lines 169-203); same body as the
MiniMax version. -/
def synthesizeAnalysis (originalQuery : String) (steps : List ResearchStep)
    (api : Except String String) : Synthesis :=
  let rd := researchData steps
  match api with
  | Except.error _ => { summary := "Analysis complete.", deepDive := rd }
  | Except.ok response =>
    match salvageSynthesisJson response with
    | none => { summary := "Analysis complete.", deepDive := rd }
    | some JValue.null => { summary := "Analysis complete.", deepDive := rd }
    | some v =>
      let s := jsGet v "summary"
      let d := jsGet v "deepDive"
      { summary := if s.truthy then s.display else "Analysis complete.",
        deepDive := if d.truthy then d.display else response }

end OllamaService

/-! ## Gemini backend (`geminiService.ts`)

The self-grounding backend: its API calls happen *outside* the `try`
blocks (a transport error propagates); only the `JSON.parse` is guarded.
The plan path has no regex extraction, and an empty response text defaults
to `"[]"` (plan) or `"{}"` (synthesis) through JS `||`. -/

namespace GeminiService

/-- `GeminiService.generateResearchPlan` (lines 40-70): the post-response
part, given the model's response text (`response.text || "[]"`, where both
`undefined` and `""` are falsy and modelled as `""`). -/
def generateResearchPlan (userQuery : String) (text : String) : List ResearchStep :=
  match jparse (if text = "" then "[]" else text) with
  | some (JValue.arr l) =>
    if l.any JValue.isNull then fallbackPlan userQuery
    else mkPlanSteps 0 l
  | _ => fallbackPlan userQuery

/-- `GeminiService.synthesizeAnalysis` (lines 100-127): the post-response
part. On parse success the parsed value is returned as the record (field
reads stringified at the record boundary; `undefined` fields render as
`undefined`). On parse failure: fixed summary, and the raw response text
(or a fixed message when the text is empty) — not the dossier. -/
def synthesizeAnalysis (originalQuery : String) (steps : List ResearchStep)
    (text : String) : Synthesis :=
  match jparse (if text = "" then "\x7b\x7d" else text) with
  | some v =>
    { summary := (jsGet v "summary").display, deepDive := (jsGet v "deepDive").display }
  | none =>
    { summary := "Analysis complete.",
      deepDive := if text = "" then "Analysis could not be formatted correctly." else text }

end GeminiService

/-- JS `String.prototype.trim`: strip leading and trailing whitespace
(modelled over the character list). -/
def jsTrim (s : String) : String :=
  String.mk (((s.toList.dropWhile Char.isWhitespace).reverse.dropWhile
    Char.isWhitespace).reverse)

/-! ## Source deduplication (`App.tsx` lines 267-268)

`Array.from(new Map(allSources.map(s => [s.web?.uri, s])).values())`:
a JS `Map` keeps the position of the first insertion of a key but replaces
its value on re-insertion, so for a duplicated uri the *last* occurrence's
entry wins. The `Map` is modelled as an association list with that exact
insert-or-replace behaviour. -/

/-- The JS `Map` key `s.web?.uri` (`undefined` for a source without `web`). -/
def sourceKey (s : GroundingChunk) : Option String := s.web.map (fun w => w.uri)

/-- `Map.prototype.set`: replace in place if the key is present, else append. -/
def mapUpsert (m : List (Option String × GroundingChunk)) (k : Option String)
    (v : GroundingChunk) : List (Option String × GroundingChunk) :=
  if m.any (fun p => p.1 = k) then m.map (fun p => if p.1 = k then (k, v) else p)
  else m ++ [(k, v)]

/-- `new Map(allSources.map(s => [s.web?.uri, s]))`. -/
def buildSourceMap (l : List GroundingChunk) : List (Option String × GroundingChunk) :=
  l.foldl (fun m s => mapUpsert m (sourceKey s) s) []

/-- `Array.from(map.values())`. -/
def dedupeSources (l : List GroundingChunk) : List GroundingChunk :=
  (buildSourceMap l).map Prod.snd

/-! ## Orchestrator (`App.tsx`, `handleSearch`) -/

namespace App

/-- Run states (`AppState` in `types.ts`). -/
inductive AppState where
  | idle | planning | researching | synthesizing | completed | error
deriving DecidableEq, Repr

/-- Final report (`AnalysisResult` in `types.ts`). -/
structure AnalysisResult where
  summary : String
  deepDive : String
  steps : List ResearchStep
  allSources : List GroundingChunk

/-- Observable behaviour of one `handleSearch` invocation: every observed
run state (starting from the initial `idle`), every published step list
(each `setSteps` call), and the terminal result or error message. -/
structure RunTrace where
  states : List AppState
  stepPubs : List (List ResearchStep)
  result : Option AnalysisResult
  errorMsg : Option String

/-- `err.message || 'An unexpected error occurred during research.'`. -/
def errMessage (e : String) : String :=
  if e = "" then "An unexpected error occurred during research." else e

/-- The `for` loop of `handleSearch` (lines 242-261): strictly sequential.
Each iteration publishes the list with the current step `searching`, awaits
the step, then publishes it `completed` with result and sources appended to
the running aggregate. An error stops the loop with remaining steps
untouched. -/
def researchLoop (exec : JSVal → Except String StepOutcome) :
    List ResearchStep → List ResearchStep → List GroundingChunk →
    List (List ResearchStep) →
    List (List ResearchStep) × Except String (List ResearchStep × List GroundingChunk)
  | done, [], allSources, pubs => (pubs, Except.ok (done, allSources))
  | done, s :: rest, allSources, pubs =>
    let s1 := { s with status := StepStatus.searching }
    let pubs1 := pubs ++ [done ++ s1 :: rest]
    match exec s.query with
    | Except.error e => (pubs1, Except.error e)
    | Except.ok o =>
      let s2 := { s1 with
                  status := StepStatus.completed
                  result := some o.result
                  sources := some o.sources }
      researchLoop exec (done ++ [s2]) rest (allSources ++ o.sources)
        (pubs1 ++ [done ++ s2 :: rest])

/-- `handleSearch` (`App.tsx` lines 224-283). The three backend calls are
oracle parameters: the plan outcome, the per-step executor, and the
synthesis outcome. The guard `!query.trim() || !providerConfig.isValid`
refuses to leave `idle`. Every `setAppState` is recorded in order. -/
def handleSearch (query : String) (isValid : Bool)
    (plan : Except String (List ResearchStep))
    (exec : JSVal → Except String StepOutcome)
    (synth : List ResearchStep → Except String Synthesis) : RunTrace :=
  if jsTrim query = "" ∨ isValid = false then
    { states := [AppState.idle], stepPubs := [], result := none, errorMsg := none }
  else
    match plan with
    | Except.error e =>
      { states := [AppState.idle, AppState.planning, AppState.error],
        stepPubs := [], result := none, errorMsg := some (errMessage e) }
    | Except.ok planSteps =>
      match researchLoop exec [] planSteps [] [planSteps] with
      | (pubs, Except.error e) =>
        { states := [AppState.idle, AppState.planning, AppState.researching, AppState.error],
          stepPubs := pubs, result := none, errorMsg := some (errMessage e) }
      | (pubs, Except.ok (finalSteps, allSources)) =>
        match synth finalSteps with
        | Except.error e =>
          { states := [AppState.idle, AppState.planning, AppState.researching,
                       AppState.synthesizing, AppState.error],
            stepPubs := pubs, result := none, errorMsg := some (errMessage e) }
        | Except.ok syn =>
          { states := [AppState.idle, AppState.planning, AppState.researching,
                       AppState.synthesizing, AppState.completed],
            stepPubs := pubs,
            result := some { summary := syn.summary, deepDive := syn.deepDive,
                             steps := finalSteps, allSources := dedupeSources allSources },
            errorMsg := none }

/-- `handleValidate` (`App.tsx` lines 65-158), returning the computed
`isValid`. For Gemini, validity is just a non-empty key (no probe). For
MiniMax the probe `minimax.generateResearchPlan("test")` runs only when
both the key and group id are non-empty; for Ollama it runs
unconditionally. The probe result is wrapped in `Except.ok` because the
probed function is *total*: its own `try/catch` converts every failure —
including an API error from an invalid credential — into the fallback
plan, so the `catch` branch of `handleValidate` (the `Except.error` arm
here) is unreachable. -/
def handleValidate (cfg : ProviderConfig)
    (minimaxApi : Except String String) (ollamaApi : Except String String) : Bool :=
  match cfg.provider with
  | ProviderType.gemini => cfg.apiKey != ""
  | ProviderType.minimax =>
    if cfg.apiKey = "" ∨ cfg.groupId = "" then false
    else
      match (Except.ok (MiniMaxService.generateResearchPlan "test" minimaxApi) :
          Except String (List ResearchStep)) with
      | Except.ok _ => true
      | Except.error _ => false
  | ProviderType.ollama =>
    match (Except.ok (OllamaService.generateResearchPlan "test" ollamaApi) :
        Except String (List ResearchStep)) with
    | Except.ok _ => true
    | Except.error _ => false

end App

/-! ## Settings panel mutation handlers (`ProviderSettings`)

Every input's `onChange` spreads the configuration with the changed field
and `isValid: false`; only a successful validation sets `isValid` back. -/

namespace ProviderSettings

/-- `handleProviderChange` (settings component lines 40-46). -/
def handleProviderChange (config : ProviderConfig) (provider : ProviderType) :
    ProviderConfig :=
  { config with provider := provider, isValid := false }

/-- The API-key input's `onChange` (Gemini and MiniMax panels). -/
def setApiKey (config : ProviderConfig) (value : String) : ProviderConfig :=
  { config with apiKey := value, isValid := false }

/-- The MiniMax group-id input's `onChange`. -/
def setGroupId (config : ProviderConfig) (value : String) : ProviderConfig :=
  { config with groupId := value, isValid := false }

/-- The Ollama base-URL input's `onChange` (stored in the `model` field). -/
def setOllamaBaseUrl (config : ProviderConfig) (value : String) : ProviderConfig :=
  { config with model := value, isValid := false }

/-- The Tavily search-key input's `onChange` (MiniMax and Ollama panels). -/
def setSearchApiKey (config : ProviderConfig) (value : String) : ProviderConfig :=
  { config with searchApiKey := value, isValid := false }

end ProviderSettings

/-- Whether the MiniMax/Ollama plan-salvaging pipeline (regex extraction
then parse then `.map`) produces steps rather than falling back: it must
yield a JSON array none of whose elements is `null`. -/
def planSalvaged (response : String) : Bool :=
  match MiniMaxService.salvagePlanJson response with
  | some (JValue.arr l) => !(l.any JValue.isNull)
  | _ => false

/-- The analogous condition for the Gemini plan path (no extraction;
empty text defaults to `"[]"`). -/
def geminiPlanSalvaged (text : String) : Bool :=
  match jparse (if text = "" then "[]" else text) with
  | some (JValue.arr l) => !(l.any JValue.isNull)
  | _ => false

/-! # Theorems -/

/-- **C4.** For every step query, if the Evidence Source search returns zero
hits, `executeResearchStep` of both search-augmented backends returns the
fixed sentinel result string and an empty source list, issues no
reasoning-model call, and cannot fail on this path (the outcome is `ok`
for every possible reasoning-call outcome). -/
theorem C4_zero_hits_short_circuit :
    ∀ (query : String) (analysisApi : Except String String),
      MiniMaxService.executeResearchStep query (Except.ok []) analysisApi =
        { outcome := Except.ok { result := "No information found for this query.",
                                 sources := [] },
          reasoningCalled := false } ∧
      OllamaService.executeResearchStep query (Except.ok []) analysisApi =
        { outcome := Except.ok { result := "No information found for this query.",
                                 sources := [] },
          reasoningCalled := false } := by
  intro query analysisApi
  exact ⟨rfl, rfl⟩

/-- **C5.** For a step whose search returns a non-empty hit list, a failed
reasoning call recovers locally: the result is the raw concatenated search
context together with the sources already obtained. A failed Evidence
Source call is not recovered: the error propagates (and no reasoning call
is issued). Both search-augmented backends behave identically. -/
theorem C5_reasoning_recovers_search_propagates :
    (∀ (query e : String) (results : List SearchService.TavilySearchResult),
        results ≠ [] →
        MiniMaxService.executeResearchStep query (Except.ok results) (Except.error e) =
          { outcome := Except.ok { result := SearchService.summarizeResults query results,
                                   sources := SearchService.sourcesOf results },
            reasoningCalled := true } ∧
        OllamaService.executeResearchStep query (Except.ok results) (Except.error e) =
          { outcome := Except.ok { result := OllamaService.summarizeResults query results,
                                   sources := SearchService.sourcesOf results },
            reasoningCalled := true }) ∧
    (∀ (query e : String) (analysisApi : Except String String),
        MiniMaxService.executeResearchStep query (Except.error e) analysisApi =
          { outcome := Except.error e, reasoningCalled := false } ∧
        OllamaService.executeResearchStep query (Except.error e) analysisApi =
          { outcome := Except.error e, reasoningCalled := false }) := by
  constructor
  · intro query e results hne
    match results with
    | [] => exact absurd rfl hne
    | r :: rs =>
      constructor
      · simp [MiniMaxService.executeResearchStep, SearchService.search]
      · simp [OllamaService.executeResearchStep, SearchService.search]
  · intro query e analysisApi
    exact ⟨rfl, rfl⟩

/-- Witness for C5 at a concrete one-hit search and a failed reasoning call. -/
theorem C5_witness :
    MiniMaxService.executeResearchStep "q" (Except.ok [⟨"u", "t", "c"⟩]) (Except.error "boom") =
      { outcome := Except.ok { result := SearchService.summarizeResults "q" [⟨"u", "t", "c"⟩],
                               sources := SearchService.sourcesOf [⟨"u", "t", "c"⟩] },
        reasoningCalled := true } :=
  (C5_reasoning_recovers_search_propagates.1 "q" "boom" [⟨"u", "t", "c"⟩] (by decide)).1

/-- **C9.** Every settings mutation handler — provider selection, primary
credential, group id, base endpoint, auxiliary search credential — produces
a configuration with `isValid = false`; only a successful validation sets
it back. -/
theorem C9_mutation_resets_isValid :
    ∀ (config : ProviderConfig) (p : ProviderType) (v : String),
      (ProviderSettings.handleProviderChange config p).isValid = false ∧
      (ProviderSettings.setApiKey config v).isValid = false ∧
      (ProviderSettings.setGroupId config v).isValid = false ∧
      (ProviderSettings.setOllamaBaseUrl config v).isValid = false ∧
      (ProviderSettings.setSearchApiKey config v).isValid = false := by
  intro config p v
  exact ⟨rfl, rfl, rfl, rfl, rfl⟩

/-- **C8 (code bug).** A MiniMax configuration with non-empty but *invalid*
credentials still validates: the probe `generateResearchPlan "test"` cannot
throw, because its own catch converts the API error into the fallback plan,
so `handleValidate` returns `true` — contradicting the spec, which requires
the live probe to fail and `isValid` to stay false. -/
theorem C8_invalid_credential_still_validates :
    MiniMaxService.generateResearchPlan "test"
        (Except.error "MiniMax API error: invalid api key") = fallbackPlan "test" ∧
    App.handleValidate
        { provider := ProviderType.minimax, apiKey := "bad-key", groupId := "1234",
          model := "", searchApiKey := "tvly-x", isValid := false }
        (Except.error "MiniMax API error: invalid api key")
        (Except.error "connection refused") = true ∧
    App.handleValidate
        { provider := ProviderType.ollama, apiKey := "", groupId := "",
          model := "http://localhost:11434", searchApiKey := "", isValid := false }
        (Except.error "MiniMax API error: invalid api key")
        (Except.error "connection refused") = true := by
  exact ⟨rfl, rfl, rfl⟩

/-- **C2 (counterexample).** The claim asserts the single-step fallback with
the *original* query for every malformed plan response, including "a JSON
object instead of an array". But for the bracket-extracting backends, a
well-formed JSON *object* response that contains a bracketed array substring
has that substring extracted and parsed: the plan is built from the inner
array, and the returned step's query is "x", not the original query "orig". -/
theorem C2_counterexample :
    jparse "\x7b\"steps\":[\x7b\"query\":\"x\"\x7d]\x7d" =
      some (JValue.obj [("steps", JValue.arr [JValue.obj [("query", JValue.str "x")]])]) ∧
    MiniMaxService.generateResearchPlan "orig"
        (Except.ok "\x7b\"steps\":[\x7b\"query\":\"x\"\x7d]\x7d") =
      [{ id := "step-0", query := JSVal.ofJson (JValue.str "x"),
         status := StepStatus.pending }] ∧
    JSVal.ofJson (JValue.str "x") ≠ JSVal.ofJson (JValue.str "orig") := by
  refine ⟨rfl, rfl, ?_⟩
  intro h
  injection h with h1
  injection h1 with h2
  exact absurd h2 (by decide)

/-- **C2 (amended).** `generateResearchPlan` never propagates an error. It
returns exactly the single fallback step (query = the original input,
status `pending`) whenever the underlying call fails, and — for the
bracket-extracting backends (MiniMax/Ollama) — whenever
extraction-then-parse fails to produce a JSON array free of `null`
elements; for Gemini, whenever its direct parse (`text || "[]"`) fails to
produce such an array. (A JSON-object response *containing* a bracketed
array substring is instead salvaged into steps by MiniMax/Ollama, per the
counterexample.) -/
theorem C2_malformed_plan_fallback :
    (∀ (userQuery e : String),
        MiniMaxService.generateResearchPlan userQuery (Except.error e) =
          fallbackPlan userQuery ∧
        OllamaService.generateResearchPlan userQuery (Except.error e) =
          fallbackPlan userQuery) ∧
    (∀ (userQuery response : String), planSalvaged response = false →
        MiniMaxService.generateResearchPlan userQuery (Except.ok response) =
          fallbackPlan userQuery ∧
        OllamaService.generateResearchPlan userQuery (Except.ok response) =
          fallbackPlan userQuery) ∧
    (∀ (userQuery text : String), geminiPlanSalvaged text = false →
        GeminiService.generateResearchPlan userQuery text = fallbackPlan userQuery) := by
  refine ⟨fun userQuery e => ⟨rfl, rfl⟩, fun userQuery response h => ?_, fun userQuery text h => ?_⟩
  · rw [planSalvaged] at h
    rw [MiniMaxService.generateResearchPlan, OllamaService.generateResearchPlan]
    have hsame : OllamaService.salvagePlanJson response =
        MiniMaxService.salvagePlanJson response := rfl
    rw [hsame]
    cases hs : MiniMaxService.salvagePlanJson response with
    | none => exact ⟨rfl, rfl⟩
    | some v =>
      rw [hs] at h
      cases v with
      | arr l =>
        simp only [Bool.not_eq_false'] at h
        simp [h]
      | null => exact ⟨rfl, rfl⟩
      | bool b => exact ⟨rfl, rfl⟩
      | num s => exact ⟨rfl, rfl⟩
      | str s => exact ⟨rfl, rfl⟩
      | obj fields => exact ⟨rfl, rfl⟩
  · rw [geminiPlanSalvaged] at h
    rw [GeminiService.generateResearchPlan]
    cases hs : jparse (if text = "" then "[]" else text) with
    | none => rfl
    | some v =>
      rw [hs] at h
      cases v with
      | arr l =>
        simp only [Bool.not_eq_false'] at h
        simp [h]
      | null => rfl
      | bool b => rfl
      | num s => rfl
      | str s => rfl
      | obj fields => rfl

/-- Witness for C2 (amended) at concrete malformed responses: non-JSON text
for MiniMax, a truncated array for Gemini. -/
theorem C2_witness :
    MiniMaxService.generateResearchPlan "orig" (Except.ok "not json") =
      fallbackPlan "orig" ∧
    GeminiService.generateResearchPlan "orig" "[\x7b\"query\":\"a\"\x7d," =
      fallbackPlan "orig" :=
  ⟨(C2_malformed_plan_fallback.2.1 "orig" "not json" rfl).1,
   C2_malformed_plan_fallback.2.2 "orig" "[\x7b\"query\":\"a\"\x7d," rfl⟩

/-- **C6 (counterexample).** The claim asserts that on any synthesis JSON
parse failure `deepDive` equals the dossier. That holds for MiniMax/Ollama
but not for Gemini: its catch uses the raw response text (not the dossier)
as the deep dive. Concretely, with one completed step and the unparseable
response `"not json"`, Gemini's deep dive is `"not json"` while the dossier
is `"Query: sq\nFindings: res"`. -/
theorem C6_counterexample :
    jparse "not json" = none ∧
    GeminiService.synthesizeAnalysis "q"
        [{ id := "step-0", query := JSVal.ofJson (JValue.str "sq"),
           status := StepStatus.completed, result := some "res" }] "not json" =
      { summary := "Analysis complete.", deepDive := "not json" } ∧
    researchData
        [{ id := "step-0", query := JSVal.ofJson (JValue.str "sq"),
           status := StepStatus.completed, result := some "res" }] =
      "Query: sq\nFindings: res" ∧
    ("not json" : String) ≠ "Query: sq\nFindings: res" := by
  refine ⟨rfl, rfl, ?_, by decide⟩
  simp only [researchData, JSVal.display, jsStringOf, jsDisplayOpt, List.map_cons,
    List.map_nil]
  decide

/-- **C6 (amended).** `synthesizeAnalysis` never fails outright. For the
MiniMax and Ollama backends, on any parse failure — and also on a failed
API call — it returns the fixed generic summary and a `deepDive` equal to
the dossier (the concatenation of all steps' query/result pairs in step
order, `researchData`). For the Gemini backend, on any parse failure it
returns the fixed generic summary, but its `deepDive` is the raw response
text, not the dossier. -/
theorem C6_synthesis_fallback :
    (∀ (q e : String) (steps : List ResearchStep),
        MiniMaxService.synthesizeAnalysis q steps (Except.error e) =
          { summary := "Analysis complete.", deepDive := researchData steps } ∧
        OllamaService.synthesizeAnalysis q steps (Except.error e) =
          { summary := "Analysis complete.", deepDive := researchData steps }) ∧
    (∀ (q response : String) (steps : List ResearchStep),
        MiniMaxService.salvageSynthesisJson response = none →
        MiniMaxService.synthesizeAnalysis q steps (Except.ok response) =
          { summary := "Analysis complete.", deepDive := researchData steps } ∧
        OllamaService.synthesizeAnalysis q steps (Except.ok response) =
          { summary := "Analysis complete.", deepDive := researchData steps }) ∧
    (∀ (q text : String) (steps : List ResearchStep),
        jparse (if text = "" then "\x7b\x7d" else text) = none →
        GeminiService.synthesizeAnalysis q steps text =
          { summary := "Analysis complete.", deepDive := text }) := by
  refine ⟨fun q e steps => ⟨rfl, rfl⟩, fun q response steps h => ?_, fun q text steps h => ?_⟩
  · have hsame : OllamaService.salvageSynthesisJson response =
        MiniMaxService.salvageSynthesisJson response := rfl
    rw [MiniMaxService.synthesizeAnalysis, OllamaService.synthesizeAnalysis, hsame, h]
    exact ⟨rfl, rfl⟩
  · have htext : text ≠ "" := by
      intro he
      rw [he] at h
      simp only [if_pos rfl] at h
      exact Option.noConfusion ((rfl : jparse "\x7b\x7d" = some (JValue.obj [])).symm.trans h)
    rw [GeminiService.synthesizeAnalysis, h]
    simp [htext]

/-- Witness for C6 (amended) at the unparseable response `"not json"` and
one completed step. -/
theorem C6_witness :
    MiniMaxService.synthesizeAnalysis "q"
        [{ id := "step-0", query := JSVal.ofJson (JValue.str "sq"),
           status := StepStatus.completed, result := some "res" }]
        (Except.ok "not json") =
      { summary := "Analysis complete.",
        deepDive := researchData
          [{ id := "step-0", query := JSVal.ofJson (JValue.str "sq"),
             status := StepStatus.completed, result := some "res" }] } ∧
    GeminiService.synthesizeAnalysis "q"
        [{ id := "step-0", query := JSVal.ofJson (JValue.str "sq"),
           status := StepStatus.completed, result := some "res" }] "not json" =
      { summary := "Analysis complete.", deepDive := "not json" } :=
  ⟨(C6_synthesis_fallback.2.1 "q" "not json"
      [{ id := "step-0", query := JSVal.ofJson (JValue.str "sq"),
         status := StepStatus.completed, result := some "res" }] rfl).1,
   C6_synthesis_fallback.2.2 "q" "not json"
      [{ id := "step-0", query := JSVal.ofJson (JValue.str "sq"),
         status := StepStatus.completed, result := some "res" }] rfl⟩

/-- **C10.** For the Gemini backend, an empty plan response text (or the
well-formed empty array `"[]"`) yields an *empty* plan — not the single-step
fallback — and a run started from it passes through `researching` with no
steps (one published empty step list) and completes, provided synthesis
returns. -/
theorem C10_empty_plan_run_completes :
    (∀ userQuery : String, GeminiService.generateResearchPlan userQuery "" = []) ∧
    (∀ userQuery : String, GeminiService.generateResearchPlan userQuery "[]" = []) ∧
    (∀ (query : String) (exec : JSVal → Except String StepOutcome)
        (synth : List ResearchStep → Except String Synthesis) (syn : Synthesis),
        jsTrim query ≠ "" → synth [] = Except.ok syn →
        App.handleSearch query true
            (Except.ok (GeminiService.generateResearchPlan query "")) exec synth =
          { states := [App.AppState.idle, App.AppState.planning, App.AppState.researching,
                       App.AppState.synthesizing, App.AppState.completed],
            stepPubs := [[]],
            result := some { summary := syn.summary, deepDive := syn.deepDive,
                             steps := [], allSources := [] },
            errorMsg := none }) := by
  refine ⟨fun _ => rfl, fun _ => rfl, fun query exec synth syn hq hs => ?_⟩
  have h0 : GeminiService.generateResearchPlan query "" = [] := rfl
  rw [h0]
  unfold App.handleSearch
  rw [if_neg (by simp [hq])]
  simp only [App.researchLoop]
  rw [hs]
  rfl

/-- Witness for C10 at a concrete query and a synthesis oracle that
returns a fixed report. -/
theorem C10_witness :
    App.handleSearch "q" true
        (Except.ok (GeminiService.generateResearchPlan "q" ""))
        (fun _ => Except.error "never called")
        (fun _ => Except.ok { summary := "s", deepDive := "d" }) =
      { states := [App.AppState.idle, App.AppState.planning, App.AppState.researching,
                   App.AppState.synthesizing, App.AppState.completed],
        stepPubs := [[]],
        result := some { summary := "s", deepDive := "d", steps := [], allSources := [] },
        errorMsg := none } :=
  C10_empty_plan_run_completes.2.2 "q" (fun _ => Except.error "never called")
    (fun _ => Except.ok { summary := "s", deepDive := "d" })
    { summary := "s", deepDive := "d" } (by decide) rfl

/-- The plan mapping preserves length. -/
theorem mkPlanSteps_length (l : List JValue) : ∀ i, (mkPlanSteps i l).length = l.length := by
  induction l with
  | nil => intro i; rfl
  | cons p rest ih => intro i; simp [mkPlanSteps, ih]

/-- Each produced step's query is the corresponding element's `query` field. -/
theorem mkPlanSteps_query (l : List JValue) :
    ∀ i, (mkPlanSteps i l).map (fun s => s.query) = l.map (fun p => jsGet p "query") := by
  induction l with
  | nil => intro i; rfl
  | cons p rest ih => intro i; simp [mkPlanSteps, ih]

/-- Every produced step starts `pending`. -/
theorem mkPlanSteps_status (l : List JValue) :
    ∀ i, ∀ s ∈ mkPlanSteps i l, s.status = StepStatus.pending := by
  induction l with
  | nil => intro i s hs; cases hs
  | cons p rest ih =>
    intro i s hs
    rcases List.mem_cons.mp hs with rfl | hs2
    · rfl
    · exact ih (i + 1) s hs2

/-- An array all of whose elements have a string `query` field contains no
`null` element (access on `null` would be `undefined`, not a string). -/
theorem planNoNull (l : List JValue)
    (hq : ∀ p ∈ l, ∃ q : String, jsGet p "query" = JSVal.ofJson (JValue.str q)) :
    l.any JValue.isNull = false := by
  rw [Bool.eq_false_iff]
  intro h
  rw [List.any_eq_true] at h
  obtain ⟨p, hp, hnull⟩ := h
  cases p with
  | null =>
    obtain ⟨q, hqq⟩ := hq JValue.null hp
    exact JSVal.noConfusion hqq
  | bool b => exact Bool.noConfusion hnull
  | num s => exact Bool.noConfusion hnull
  | str s => exact Bool.noConfusion hnull
  | arr l2 => exact Bool.noConfusion hnull
  | obj fields => exact Bool.noConfusion hnull

/-- Shared core for C3: the mapped plan of a well-formed array of length
1..4 has matching length, pairwise-distinct ids, matching queries, and
`pending` statuses. -/
theorem planFromArray_spec (l : List JValue)
    (hq : ∀ p ∈ l, ∃ q : String, jsGet p "query" = JSVal.ofJson (JValue.str q))
    (h1 : 1 ≤ l.length) (h4 : l.length ≤ 4) :
    (mkPlanSteps 0 l).length = l.length ∧
    ((mkPlanSteps 0 l).map (fun s => s.id)).Nodup ∧
    (mkPlanSteps 0 l).map (fun s => s.query) = l.map (fun p => jsGet p "query") ∧
    (∀ s ∈ mkPlanSteps 0 l, s.status = StepStatus.pending) := by
  refine ⟨mkPlanSteps_length l 0, ?_, mkPlanSteps_query l 0, mkPlanSteps_status l 0⟩
  rcases l with _ | ⟨a, _ | ⟨b, _ | ⟨c, _ | ⟨d, _ | ⟨e, tl⟩⟩⟩⟩⟩
  · exact absurd h1 (by simp)
  · simp only [mkPlanSteps, List.map_cons, List.map_nil]
    decide
  · simp only [mkPlanSteps, List.map_cons, List.map_nil]
    decide
  · simp only [mkPlanSteps, List.map_cons, List.map_nil]
    decide
  · simp only [mkPlanSteps, List.map_cons, List.map_nil]
    decide
  · exfalso
    simp only [List.length_cons] at h4
    omega

/-- **C3.** For every well-formed plan response whose salvaged JSON is an
array of k objects with a string `query` field, k ∈ [1,4],
`generateResearchPlan` returns exactly k steps with pairwise-distinct
identifiers, each step's query equal to the corresponding element's
`query` field, and every status `pending` — for the MiniMax (extraction)
path and the Gemini (direct parse) path alike. -/
theorem C3_wellformed_plan :
    (∀ (userQuery response : String) (l : List JValue),
        MiniMaxService.salvagePlanJson response = some (JValue.arr l) →
        (∀ p ∈ l, ∃ q : String, jsGet p "query" = JSVal.ofJson (JValue.str q)) →
        1 ≤ l.length → l.length ≤ 4 →
        (MiniMaxService.generateResearchPlan userQuery (Except.ok response)).length = l.length ∧
        ((MiniMaxService.generateResearchPlan userQuery (Except.ok response)).map
            (fun s => s.id)).Nodup ∧
        (MiniMaxService.generateResearchPlan userQuery (Except.ok response)).map
            (fun s => s.query) = l.map (fun p => jsGet p "query") ∧
        (∀ s ∈ MiniMaxService.generateResearchPlan userQuery (Except.ok response),
            s.status = StepStatus.pending)) ∧
    (∀ (userQuery text : String) (l : List JValue),
        jparse (if text = "" then "[]" else text) = some (JValue.arr l) →
        (∀ p ∈ l, ∃ q : String, jsGet p "query" = JSVal.ofJson (JValue.str q)) →
        1 ≤ l.length → l.length ≤ 4 →
        (GeminiService.generateResearchPlan userQuery text).length = l.length ∧
        ((GeminiService.generateResearchPlan userQuery text).map (fun s => s.id)).Nodup ∧
        (GeminiService.generateResearchPlan userQuery text).map (fun s => s.query) =
          l.map (fun p => jsGet p "query") ∧
        (∀ s ∈ GeminiService.generateResearchPlan userQuery text,
            s.status = StepStatus.pending)) := by
  constructor
  · intro userQuery response l hs hq h1 h4
    have hnn := planNoNull l hq
    have hout : MiniMaxService.generateResearchPlan userQuery (Except.ok response) =
        mkPlanSteps 0 l := by
      simp only [MiniMaxService.generateResearchPlan, hs]
      rw [if_neg (by simp [hnn])]
    rw [hout]
    exact planFromArray_spec l hq h1 h4
  · intro userQuery text l hs hq h1 h4
    have hnn := planNoNull l hq
    have hout : GeminiService.generateResearchPlan userQuery text = mkPlanSteps 0 l := by
      simp only [GeminiService.generateResearchPlan, hs]
      rw [if_neg (by simp [hnn])]
    rw [hout]
    exact planFromArray_spec l hq h1 h4

/-- Witness for C3 at the concrete well-formed two-element plan response. -/
theorem C3_witness :
    (MiniMaxService.generateResearchPlan "orig"
        (Except.ok "[\x7b\"query\":\"a\"\x7d,\x7b\"query\":\"b\"\x7d]")).length =
      [JValue.obj [("query", JValue.str "a")], JValue.obj [("query", JValue.str "b")]].length ∧
    ((MiniMaxService.generateResearchPlan "orig"
        (Except.ok "[\x7b\"query\":\"a\"\x7d,\x7b\"query\":\"b\"\x7d]")).map
        (fun s => s.id)).Nodup ∧
    (MiniMaxService.generateResearchPlan "orig"
        (Except.ok "[\x7b\"query\":\"a\"\x7d,\x7b\"query\":\"b\"\x7d]")).map
        (fun s => s.query) =
      [JValue.obj [("query", JValue.str "a")], JValue.obj [("query", JValue.str "b")]].map
        (fun p => jsGet p "query") ∧
    (∀ s ∈ MiniMaxService.generateResearchPlan "orig"
        (Except.ok "[\x7b\"query\":\"a\"\x7d,\x7b\"query\":\"b\"\x7d]"),
        s.status = StepStatus.pending) :=
  C3_wellformed_plan.1 "orig" "[\x7b\"query\":\"a\"\x7d,\x7b\"query\":\"b\"\x7d]"
    [JValue.obj [("query", JValue.str "a")], JValue.obj [("query", JValue.str "b")]]
    rfl
    (by
      intro p hp
      rcases List.mem_cons.mp hp with rfl | hp2
      · exact ⟨"a", rfl⟩
      · rcases List.mem_cons.mp hp2 with rfl | hp3
        · exact ⟨"b", rfl⟩
        · cases hp3)
    (by decide) (by decide)

/-- If every step execution succeeds, the research loop returns `ok`. -/
theorem researchLoop_all_ok (exec : JSVal → Except String StepOutcome)
    (hexec : ∀ v, ∃ o, exec v = Except.ok o) :
    ∀ (rest done : List ResearchStep) (acc : List GroundingChunk)
      (pubs : List (List ResearchStep)),
      ∃ pubs2 fs srcs,
        App.researchLoop exec done rest acc pubs = (pubs2, Except.ok (fs, srcs)) := by
  intro rest
  induction rest with
  | nil => intro done acc pubs; exact ⟨pubs, done, acc, rfl⟩
  | cons s rest ih =>
    intro done acc pubs
    obtain ⟨o, ho⟩ := hexec s.query
    simp only [App.researchLoop, ho]
    exact ih _ _ _

/-- **C1.** (i) Any full successful run — non-empty query, valid config,
plan returned, every step execution and the synthesis succeeding — observes
exactly the states `idle, planning, researching, synthesizing, completed`,
each entered once, in that order. (ii) In a run whose 3-step plan fails at
step 2, the observed states are exactly `idle, planning, researching,
error` (carrying the error's message), and in every published step list the
third step is never marked `searching`. -/
theorem C1_state_ordering :
    (∀ (query : String) (plan : List ResearchStep)
        (exec : JSVal → Except String StepOutcome)
        (synth : List ResearchStep → Except String Synthesis),
        jsTrim query ≠ "" →
        (∀ v, ∃ o, exec v = Except.ok o) →
        (∀ steps, ∃ syn, synth steps = Except.ok syn) →
        (App.handleSearch query true (Except.ok plan) exec synth).states =
          [App.AppState.idle, App.AppState.planning, App.AppState.researching,
           App.AppState.synthesizing, App.AppState.completed]) ∧
    (∀ (query e : String) (s1 s2 s3 : ResearchStep) (o1 : StepOutcome)
        (exec : JSVal → Except String StepOutcome)
        (synth : List ResearchStep → Except String Synthesis),
        jsTrim query ≠ "" →
        s3.status = StepStatus.pending →
        exec s1.query = Except.ok o1 →
        exec s2.query = Except.error e →
        (App.handleSearch query true (Except.ok [s1, s2, s3]) exec synth).states =
          [App.AppState.idle, App.AppState.planning, App.AppState.researching,
           App.AppState.error] ∧
        (App.handleSearch query true (Except.ok [s1, s2, s3]) exec synth).errorMsg =
          some (App.errMessage e) ∧
        (∀ pub ∈ (App.handleSearch query true (Except.ok [s1, s2, s3]) exec synth).stepPubs,
          ∀ s, pub[2]? = some s → s.status ≠ StepStatus.searching)) := by
  constructor
  · intro query plan exec synth hq hexec hsynth
    obtain ⟨pubs2, fs, srcs, hloop⟩ := researchLoop_all_ok exec hexec plan [] [] [plan]
    obtain ⟨syn, hsyn⟩ := hsynth fs
    unfold App.handleSearch
    rw [if_neg (by simp [hq])]
    simp only [hloop, hsyn]
  · intro query e s1 s2 s3 o1 exec synth hq h3 h1 h2
    unfold App.handleSearch
    rw [if_neg (by simp [hq])]
    simp only [App.researchLoop, h1, h2]
    refine ⟨trivial, trivial, ?_⟩
    intro pub hpub s hs
    fin_cases hpub
    · have hs3 : some s3 = some s := hs
      injection hs3 with hs2
      subst hs2
      rw [h3]
      decide
    · have hs3 : some s3 = some s := hs
      injection hs3 with hs2
      subst hs2
      rw [h3]
      decide
    · have hs3 : some s3 = some s := hs
      injection hs3 with hs2
      subst hs2
      rw [h3]
      decide
    · have hs3 : some s3 = some s := hs
      injection hs3 with hs2
      subst hs2
      rw [h3]
      decide

/-- Witness for C1: a concrete successful run over a one-step plan, and a
concrete 3-step run failing at step 2 (the executor succeeds on query "a"
and fails on everything else). -/
theorem C1_witness :
    (App.handleSearch "q" true
        (Except.ok [{ id := "step-0", query := JSVal.ofJson (JValue.str "a"),
                      status := StepStatus.pending }])
        (fun _ => Except.ok { result := "r", sources := [] })
        (fun _ => Except.ok { summary := "s", deepDive := "d" })).states =
      [App.AppState.idle, App.AppState.planning, App.AppState.researching,
       App.AppState.synthesizing, App.AppState.completed] ∧
    (App.handleSearch "q" true
        (Except.ok [{ id := "step-0", query := JSVal.ofJson (JValue.str "a"),
                      status := StepStatus.pending },
                    { id := "step-1", query := JSVal.ofJson (JValue.str "b"),
                      status := StepStatus.pending },
                    { id := "step-2", query := JSVal.ofJson (JValue.str "c"),
                      status := StepStatus.pending }])
        (fun v => match v with
          | JSVal.ofJson (JValue.str "a") => Except.ok { result := "r", sources := [] }
          | _ => Except.error "boom")
        (fun _ => Except.ok { summary := "s", deepDive := "d" })).states =
      [App.AppState.idle, App.AppState.planning, App.AppState.researching,
       App.AppState.error] ∧
    (App.handleSearch "q" true
        (Except.ok [{ id := "step-0", query := JSVal.ofJson (JValue.str "a"),
                      status := StepStatus.pending },
                    { id := "step-1", query := JSVal.ofJson (JValue.str "b"),
                      status := StepStatus.pending },
                    { id := "step-2", query := JSVal.ofJson (JValue.str "c"),
                      status := StepStatus.pending }])
        (fun v => match v with
          | JSVal.ofJson (JValue.str "a") => Except.ok { result := "r", sources := [] }
          | _ => Except.error "boom")
        (fun _ => Except.ok { summary := "s", deepDive := "d" })).errorMsg =
      some (App.errMessage "boom") :=
  ⟨C1_state_ordering.1 "q"
      [{ id := "step-0", query := JSVal.ofJson (JValue.str "a"),
         status := StepStatus.pending }]
      (fun _ => Except.ok { result := "r", sources := [] })
      (fun _ => Except.ok { summary := "s", deepDive := "d" })
      (by decide)
      (fun _ => ⟨{ result := "r", sources := [] }, rfl⟩)
      (fun _ => ⟨{ summary := "s", deepDive := "d" }, rfl⟩),
   (C1_state_ordering.2 "q" "boom"
      { id := "step-0", query := JSVal.ofJson (JValue.str "a"), status := StepStatus.pending }
      { id := "step-1", query := JSVal.ofJson (JValue.str "b"), status := StepStatus.pending }
      { id := "step-2", query := JSVal.ofJson (JValue.str "c"), status := StepStatus.pending }
      { result := "r", sources := [] }
      (fun v => match v with
        | JSVal.ofJson (JValue.str "a") => Except.ok { result := "r", sources := [] }
        | _ => Except.error "boom")
      (fun _ => Except.ok { summary := "s", deepDive := "d" })
      (by decide) rfl rfl rfl).1,
   (C1_state_ordering.2 "q" "boom"
      { id := "step-0", query := JSVal.ofJson (JValue.str "a"), status := StepStatus.pending }
      { id := "step-1", query := JSVal.ofJson (JValue.str "b"), status := StepStatus.pending }
      { id := "step-2", query := JSVal.ofJson (JValue.str "c"), status := StepStatus.pending }
      { result := "r", sources := [] }
      (fun v => match v with
        | JSVal.ofJson (JValue.str "a") => Except.ok { result := "r", sources := [] }
        | _ => Except.error "boom")
      (fun _ => Except.ok { summary := "s", deepDive := "d" })
      (by decide) rfl rfl rfl).2.1⟩

/-- One `foldl` step of the map construction. -/
theorem buildSourceMap_snoc (l : List GroundingChunk) (s : GroundingChunk) :
    buildSourceMap (l ++ [s]) = mapUpsert (buildSourceMap l) (sourceKey s) s := by
  simp [buildSourceMap, List.foldl_append]

/-- Replacing under a key that no entry carries filters to nothing. -/
theorem filter_map_replace_nil {m : List (Option String × GroundingChunk)}
    {k : Option String} {v : GroundingChunk} (h : ∀ p ∈ m, p.1 ≠ k) :
    (m.map (fun p => if p.1 = k then (k, v) else p)).filter (fun p => p.1 = k) = [] := by
  induction m with
  | nil => rfl
  | cons q m ih =>
    have hq : q.1 ≠ k := h q (List.mem_cons_self q m)
    have ih2 := ih (fun p hp => h p (List.mem_cons_of_mem q hp))
    simp [hq, ih2]

/-- With pairwise-distinct keys and the key present, in-place replacement
leaves exactly one entry under that key: the new one. -/
theorem filter_map_replace {m : List (Option String × GroundingChunk)}
    {k : Option String} {v : GroundingChunk}
    (hnd : (m.map Prod.fst).Nodup) (hmem : m.any (fun p => p.1 = k) = true) :
    (m.map (fun p => if p.1 = k then (k, v) else p)).filter (fun p => p.1 = k) =
      [(k, v)] := by
  induction m with
  | nil => simp at hmem
  | cons q m ih =>
    rw [List.map_cons] at hnd
    have hnd2 := List.nodup_cons.mp hnd
    by_cases hq : q.1 = k
    · have htail : ∀ p ∈ m, p.1 ≠ k := by
        intro p hp hpk
        apply hnd2.1
        rw [hq, ← hpk]
        exact List.mem_map_of_mem Prod.fst hp
      simp only [List.map_cons, if_pos hq, List.filter_cons]
      rw [if_pos (by simp)]
      rw [filter_map_replace_nil htail]
    · have hmem2 : m.any (fun p => p.1 = k) = true := by simpa [hq] using hmem
      simp only [List.map_cons, if_neg hq, List.filter_cons]
      rw [if_neg (by simp [hq])]
      exact ih hnd2.2 hmem2

/-- In-place replacement under one key does not disturb the entries under
another key. -/
theorem filter_map_keep_other {m : List (Option String × GroundingChunk)}
    {k k2 : Option String} {v : GroundingChunk} (hne : k2 ≠ k) :
    (m.map (fun p => if p.1 = k then (k, v) else p)).filter (fun p => p.1 = k2) =
      m.filter (fun p => p.1 = k2) := by
  induction m with
  | nil => rfl
  | cons q m ih =>
    by_cases hq : q.1 = k
    · have hkk2 : ¬(k = k2) := fun h2 => hne h2.symm
      simp [hq, hkk2, ih]
    · simp only [List.map_cons, if_neg hq, List.filter_cons, ih]

/-- An upsert under one key does not disturb the entries under another. -/
theorem filter_mapUpsert_other {m : List (Option String × GroundingChunk)}
    {k k2 : Option String} {v : GroundingChunk} (hne : k2 ≠ k) :
    (mapUpsert m k v).filter (fun p => p.1 = k2) = m.filter (fun p => p.1 = k2) := by
  unfold mapUpsert
  split
  · exact filter_map_keep_other hne
  · rw [List.filter_append]
    simp [Ne.symm hne]

/-- Every stored entry's key is the key of its value. -/
theorem mapUpsert_key_pres {m : List (Option String × GroundingChunk)}
    {k : Option String} {v : GroundingChunk}
    (h : ∀ p ∈ m, p.1 = sourceKey p.2) (hk : k = sourceKey v) :
    ∀ p ∈ mapUpsert m k v, p.1 = sourceKey p.2 := by
  intro p hp
  unfold mapUpsert at hp
  split at hp
  · obtain ⟨q, hq, rfl⟩ := List.mem_map.mp hp
    by_cases hqk : q.1 = k
    · rw [if_pos hqk]
      exact hk
    · rw [if_neg hqk]
      exact h q hq
  · rcases List.mem_append.mp hp with h2 | h2
    · exact h p h2
    · have : p = (k, v) := by simpa using h2
      rw [this]
      exact hk

/-- Key/value coherence of the whole association list. -/
theorem buildSourceMap_key_inv (l : List GroundingChunk) :
    ∀ p ∈ buildSourceMap l, p.1 = sourceKey p.2 := by
  induction l using List.reverseRecOn with
  | nil => intro p hp; simp [buildSourceMap] at hp
  | append_singleton l s ih =>
    rw [buildSourceMap_snoc]
    exact mapUpsert_key_pres ih rfl

/-- An upsert keeps the keys pairwise distinct. -/
theorem mapUpsert_keys_nodup {m : List (Option String × GroundingChunk)}
    {k : Option String} {v : GroundingChunk} (h : (m.map Prod.fst).Nodup) :
    ((mapUpsert m k v).map Prod.fst).Nodup := by
  unfold mapUpsert
  split
  · have heq : (m.map (fun p => if p.1 = k then (k, v) else p)).map Prod.fst =
        m.map Prod.fst := by
      rw [List.map_map]
      apply List.map_congr_left
      intro p hp
      by_cases hpk : p.1 = k <;> simp [hpk]
    rw [heq]
    exact h
  · rename_i hany
    rw [List.map_append]
    have hnot : k ∉ m.map Prod.fst := by
      intro hmem
      obtain ⟨p, hp, hpk⟩ := List.mem_map.mp hmem
      exact hany (List.any_eq_true.mpr ⟨p, hp, by simp [hpk]⟩)
    simp [List.nodup_append, h, hnot]

/-- The map's keys are pairwise distinct. -/
theorem buildSourceMap_keys_nodup (l : List GroundingChunk) :
    ((buildSourceMap l).map Prod.fst).Nodup := by
  induction l using List.reverseRecOn with
  | nil => simp [buildSourceMap]
  | append_singleton l s ih =>
    rw [buildSourceMap_snoc]
    exact mapUpsert_keys_nodup ih

/-- Characterization of the map: under each key it stores exactly the
*last* occurrence (in insertion order) of a source with that key, or
nothing when no source has that key. -/
theorem buildSourceMap_filter (l : List GroundingChunk) (k : Option String) :
    ∀ x, (buildSourceMap l).filter (fun p => p.1 = k) = x →
      x = ((l.filter (fun s => sourceKey s = k)).getLast?).elim [] (fun v => [(k, v)]) := by
  induction l using List.reverseRecOn with
  | nil => intro x hx; rw [← hx]; rfl
  | append_singleton l s ih =>
    intro x hx
    rw [buildSourceMap_snoc] at hx
    by_cases hk : sourceKey s = k
    · rw [List.filter_append]
      have hs : (List.filter (fun s => decide (sourceKey s = k)) [s]) = [s] := by
        simp [hk]
      rw [hs, List.getLast?_concat]
      rw [← hx]
      unfold mapUpsert
      split
      · rename_i hany
        rw [hk] at hany ⊢
        rw [filter_map_replace (buildSourceMap_keys_nodup l) hany]
        rw [← hk]
        rfl
      · rename_i hany
        rw [List.filter_append]
        have hfl : (buildSourceMap l).filter (fun p => p.1 = k) = [] := by
          rw [List.filter_eq_nil_iff]
          intro p hp hpk
          rw [hk] at hany
          exact hany (List.any_eq_true.mpr ⟨p, hp, hpk⟩)
        rw [hfl, hk]
        simp
    · have hne : k ≠ sourceKey s := fun h2 => hk h2.symm
      rw [filter_mapUpsert_other hne] at hx
      rw [List.filter_append]
      have hs : (List.filter (fun s => decide (sourceKey s = k)) [s]) = [] := by
        simp [hk]
      rw [hs, List.append_nil]
      exact ih x hx

/-- **C7.** The aggregated source list is deduplicated by uri at the
synthesizing→completed transition: for every uri occurring in the
aggregate (in particular when it occurs several times, with possibly
different titles), the deduplicated output contains exactly one entry with
that uri, and it equals the last occurrence in iteration order — the one
whose source step executed last. -/
theorem C7_dedupe_by_uri_last_wins :
    ∀ (l : List GroundingChunk) (u : String) (v : GroundingChunk),
      (l.filter (fun s => sourceKey s = some u)).getLast? = some v →
      (dedupeSources l).filter (fun s => sourceKey s = some u) = [v] := by
  intro l u v h
  unfold dedupeSources
  rw [List.filter_map]
  have hcong : (buildSourceMap l).filter (fun p => decide (sourceKey p.2 = some u)) =
      (buildSourceMap l).filter (fun p => p.1 = some u) := by
    apply List.filter_congr
    intro p hp
    rw [buildSourceMap_key_inv l p hp]
  have hchar := buildSourceMap_filter l (some u) _ rfl
  rw [h] at hchar
  have : (buildSourceMap l).filter (fun p => decide ((fun s => sourceKey s = some u) p.2)) =
      [(some u, v)] := by
    rw [hcong, hchar]
    rfl
  rw [Function.comp_def] at *
  simp only [Function.comp] at *
  rw [this]
  rfl

/-- Witness for C7: an aggregate with two entries sharing uri `u1` under
different titles; the deduplicated output keeps exactly the later one. -/
theorem C7_witness :
    (dedupeSources
        [{ web := some { uri := "u1", title := "t1" } },
         { web := some { uri := "u2", title := "t2" } },
         { web := some { uri := "u1", title := "t3" } }]).filter
      (fun s => sourceKey s = some "u1") =
      [{ web := some { uri := "u1", title := "t3" } }] :=
  C7_dedupe_by_uri_last_wins
    [{ web := some { uri := "u1", title := "t1" } },
     { web := some { uri := "u2", title := "t2" } },
     { web := some { uri := "u1", title := "t3" } }]
    "u1" { web := some { uri := "u1", title := "t3" } } (by decide)
